import Mathlib

/-!
Verification of the `yo` minimal version-control core (src/main.go).

The embedding models Go strings and file contents as byte lists
(`Bytes := List Nat`, each entry a byte value).  The on-disk state of the
repository (`.yo` directory, `objects/` collection, `staging` file,
`logs/commits` file) is the structure `RepoState`; the fallible filesystem
calls of the Go code are driven by explicit `Faults` flags so that every
error path of the source is represented.

SHA1 is embedded in full (padding, message schedule, 80-round compression)
over `Bytes`, with 32-bit words as `Nat` reduced `% 2^32`, mirroring
Go's `crypto/sha1` as used by `hashObject`.
-/

set_option maxRecDepth 1000000

/-- Byte strings: Go `[]byte` / `string` values, one `Nat` per byte. -/
abbrev Bytes := List Nat

/-- Bytes of an ASCII string literal (code point per byte). -/
def strBytes (s : String) : Bytes := s.toList.map Char.toNat

/-- The modulus for 32-bit words, `2 ^ 32`. -/
def M32 : Nat := 4294967296

/-- Left rotation of a 32-bit word by `n` bits. -/
def rotl (n x : Nat) : Nat := ((x <<< n) ||| (x >>> (32 - n))) % M32

/-- Big-endian packing of bytes into 32-bit words (SHA1 chunk layout). -/
def toWords : List Nat → List Nat
  | a :: b :: c :: d :: rest => (((a * 256 + b) * 256 + c) * 256 + d) :: toWords rest
  | _ => []

/-- Message-schedule extension: `acc` holds the words produced so far in
reverse order, so `w[i-3], w[i-8], w[i-14], w[i-16]` are at positions
`2, 7, 13, 15`.  Runs `n` more extension steps, then restores order. -/
def extendWords : Nat → List Nat → List Nat
  | 0, acc => acc.reverse
  | n + 1, acc =>
      let w := rotl 1 ((acc.getD 2 0) ^^^ (acc.getD 7 0) ^^^ (acc.getD 13 0) ^^^ (acc.getD 15 0))
      extendWords n (w :: acc)

/-- Round function and round constant of SHA1 for round index `i`
(the bitwise complement of `b` is `b ^^^ (2^32 - 1)` on 32-bit words). -/
def fK (i b c d : Nat) : Nat × Nat :=
  if i < 20 then ((b &&& c) ||| ((b ^^^ 4294967295) &&& d), 1518500249)
  else if i < 40 then (b ^^^ c ^^^ d, 1859775393)
  else if i < 60 then ((b &&& c) ||| (b &&& d) ||| (c &&& d), 2400959708)
  else (b ^^^ c ^^^ d, 3395469782)

/-- The 80 SHA1 rounds, consuming the extended message schedule. -/
def rounds : Nat → List Nat → Nat → Nat → Nat → Nat → Nat → Nat × Nat × Nat × Nat × Nat
  | _, [], a, b, c, d, e => (a, b, c, d, e)
  | i, w :: ws, a, b, c, d, e =>
      let fk := fK i b c d
      let temp := (rotl 5 a + fk.1 + e + fk.2 + w) % M32
      rounds (i + 1) ws temp a (rotl 30 b) c d

/-- One SHA1 compression step over a 64-byte chunk. -/
def compress (h : Nat × Nat × Nat × Nat × Nat) (chunk : List Nat) : Nat × Nat × Nat × Nat × Nat :=
  let ws := extendWords 64 (toWords chunk).reverse
  let r := rounds 0 ws h.1 h.2.1 h.2.2.1 h.2.2.2.1 h.2.2.2.2
  ((h.1 + r.1) % M32, (h.2.1 + r.2.1) % M32, (h.2.2.1 + r.2.2.1) % M32,
   (h.2.2.2.1 + r.2.2.2.1) % M32, (h.2.2.2.2 + r.2.2.2.2) % M32)

/-- Big-endian 8-byte encoding of the 64-bit message bit length. -/
def lenBytes64 (n : Nat) : List Nat :=
  [n / 2 ^ 56 % 256, n / 2 ^ 48 % 256, n / 2 ^ 40 % 256, n / 2 ^ 32 % 256,
   n / 2 ^ 24 % 256, n / 2 ^ 16 % 256, n / 2 ^ 8 % 256, n % 256]

/-- SHA1 padding: a `0x80` byte, zeros to 56 mod 64, then the bit length. -/
def pad (msg : Bytes) : Bytes :=
  msg ++ [128] ++ List.replicate ((119 - msg.length % 64) % 64) 0
      ++ lenBytes64 (msg.length * 8 % 2 ^ 64)

/-- Split into 64-byte chunks (fuelled recursion; the fuel `l.length`
always suffices since every step consumes at least one byte). -/
def chunksAux : Nat → Bytes → List Bytes
  | 0, _ => []
  | _, [] => []
  | fuel + 1, l => l.take 64 :: chunksAux fuel (l.drop 64)

/-- Split a padded message into its 64-byte chunks. -/
def chunks (l : Bytes) : List Bytes := chunksAux l.length l

/-- Big-endian bytes of one 32-bit word. -/
def wordBytes (w : Nat) : List Nat :=
  [w / 2 ^ 24 % 256, w / 2 ^ 16 % 256, w / 2 ^ 8 % 256, w % 256]

/-- SHA1 digest (20 bytes) of a byte string. -/
def sha1 (msg : Bytes) : Bytes :=
  let h := (chunks (pad msg)).foldl compress
    (1732584193, 4023233417, 2562383102, 271733878, 3285377520)
  wordBytes h.1 ++ wordBytes h.2.1 ++ wordBytes h.2.2.1 ++ wordBytes h.2.2.2.1
    ++ wordBytes h.2.2.2.2

/-- Lowercase hex digit byte for a nibble, as in Go's
`encoding/hex` table `"0123456789abcdef"`. -/
def hexDigit (k : Nat) : Nat := if k < 10 then 48 + k else 87 + k

/-- Lowercase hex encoding of a byte string, two digits per byte
(`hex.EncodeToString`). -/
def hexEncode : Bytes → Bytes
  | [] => []
  | b :: t => hexDigit (b / 16) :: hexDigit (b % 16) :: hexEncode t

/-- `hashObject` of src/main.go: lowercase hex of the SHA1 of the content. -/
def hashObject (content : Bytes) : Bytes := hexEncode (sha1 content)

/-- A byte that is a lowercase hexadecimal character: `'0'..'9'` or `'a'..'f'`. -/
def isLowerHexByte (b : Nat) : Prop := (48 ≤ b ∧ b ≤ 57) ∨ (97 ≤ b ∧ b ≤ 102)

instance : DecidablePred isLowerHexByte := fun b => by
  unfold isLowerHexByte; infer_instance

/-! ## Repository state and operations -/

/-- Errors of the core operations, one constructor per `fmt.Errorf` site in
src/main.go.  Spec taxonomy: `alreadyExists` = AlreadyInitialized;
`readSourceFailure` = UnreadableSource; `readStagingFailure` = NoStagedChanges
and StagingUnreadable (the Go code does not distinguish an absent staging
file from an unreadable one — both are "failed to read staging area");
`writeCommitFailure` = CommitWriteFailure; `openLogFailure` and
`writeLogFailure` = LogAppendFailure; `clearStagingFailure` =
StagingClearFailure; `readLogFailure` = LogUnavailable. -/
inductive YoError where
  | alreadyExists
  | mkdirObjectsFailure
  | mkdirLogsFailure
  | readSourceFailure
  | writeObjectFailure
  | openStagingFailure
  | writeStagingFailure
  | readStagingFailure
  | writeCommitFailure
  | openLogFailure
  | writeLogFailure
  | clearStagingFailure
  | readLogFailure
  deriving DecidableEq

/-- On-disk state of the repository rooted at the working directory:
whether `.yo`, `.yo/objects` and `.yo/logs` exist, the object files
(newest first; lookup takes the first match, matching overwrite), and the
contents of `.yo/staging` and `.yo/logs/commits` (`none` = file absent). -/
structure RepoState where
  yoDir : Bool
  objectsDir : Bool
  logsDir : Bool
  objects : List (Bytes × Bytes)
  staging : Option Bytes
  log : Option Bytes
  deriving DecidableEq

/-- Fault flags for the fallible filesystem calls of src/main.go; a `true`
flag makes the corresponding call fail.  Calls also fail for structural
reasons (missing directory or file) independently of these flags. -/
structure Faults where
  mkdirObjects : Bool
  mkdirLogs : Bool
  readSource : Bool
  writeObject : Bool
  openStaging : Bool
  writeStaging : Bool
  readStaging : Bool
  writeCommit : Bool
  openLog : Bool
  writeLog : Bool
  removeStaging : Bool
  readLog : Bool
  deriving DecidableEq

/-- The fault-free environment: every filesystem call succeeds when its
structural preconditions (directories, files present) hold. -/
def noFaults : Faults :=
  ⟨false, false, false, false, false, false, false, false, false, false, false, false⟩

/-- `ioutil.WriteFile` into `.yo/objects/<key>`: overwrite-or-create, modelled
by prepending (lookup returns the newest entry). -/
def writeObject (st : RepoState) (key content : Bytes) : RepoState :=
  { st with objects := (key, content) :: st.objects }

/-- One staging record line, `fmt.Sprintf("%s %s\n", hash, file)`:
the digest, a space (byte 32), the path verbatim, a newline (byte 10). -/
def stagingLine (digest file : Bytes) : Bytes := digest ++ [32] ++ file ++ [10]

/-- One history log record,
`fmt.Sprintf("Commit: %s\nMessage: %s\nTime: %s\n\n", hash, message, t)`. -/
def logRecord (digest message tstamp : Bytes) : Bytes :=
  strBytes "Commit: " ++ digest ++ strBytes "\nMessage: " ++ message
    ++ strBytes "\nTime: " ++ tstamp ++ strBytes "\n\n"

/-- `yoInit` of src/main.go: fail if `.yo` exists, else create
`.yo/objects` (which also creates `.yo`) and `.yo/logs`. -/
def yoInit (st : RepoState) (fl : Faults) : RepoState × Except YoError Unit :=
  if st.yoDir then (st, .error .alreadyExists)
  else if fl.mkdirObjects then (st, .error .mkdirObjectsFailure)
  else
    let st1 := { st with yoDir := true, objectsDir := true }
    if fl.mkdirLogs then (st1, .error .mkdirLogsFailure)
    else ({ st1 with logsDir := true }, .ok ())

/-- `yoAdd` of src/main.go: read the source file from the surrounding
filesystem `fs` (path ↦ content), write the object under its digest,
then open `.yo/staging` in append-create mode (creating the file) and
append one staging line. -/
def yoAdd (fs : List (Bytes × Bytes)) (st : RepoState) (file : Bytes) (fl : Faults) :
    RepoState × Except YoError Unit :=
  match (if fl.readSource then none else fs.lookup file) with
  | none => (st, .error .readSourceFailure)
  | some content =>
    let hash := hashObject content
    if !st.objectsDir || fl.writeObject then (st, .error .writeObjectFailure)
    else
      let st1 := writeObject st hash content
      if !st1.yoDir || fl.openStaging then (st1, .error .openStagingFailure)
      else
        let st2 := { st1 with staging := some (st1.staging.getD []) }
        if fl.writeStaging then (st2, .error .writeStagingFailure)
        else
          ({ st2 with staging := some (st2.staging.getD [] ++ stagingLine hash file) }, .ok ())

/-- `yoCommit` of src/main.go: read all of `.yo/staging`, hash
`stagingContent ++ message ++ t1` (with `t1` the `time.Now().String()`
captured once, immediately before hashing), write the commit object —
payload `stagingContent` — under that digest, open `.yo/logs/commits` in
append-create mode and append the log record (with the second timestamp
`t2 = time.Now().Format(time.RFC1123)`), then remove `.yo/staging`. -/
def yoCommit (st : RepoState) (message t1 t2 : Bytes) (fl : Faults) :
    RepoState × Except YoError Unit :=
  match (if fl.readStaging then none else st.staging) with
  | none => (st, .error .readStagingFailure)
  | some stagingContent =>
    let commitHash := hashObject (stagingContent ++ message ++ t1)
    if !st.objectsDir || fl.writeCommit then (st, .error .writeCommitFailure)
    else
      let st1 := writeObject st commitHash stagingContent
      if !st1.logsDir || fl.openLog then (st1, .error .openLogFailure)
      else
        let st2 := { st1 with log := some (st1.log.getD []) }
        if fl.writeLog then (st2, .error .writeLogFailure)
        else
          let st3 := { st2 with
            log := some (st2.log.getD [] ++ logRecord commitHash message t2) }
          if fl.removeStaging then (st3, .error .clearStagingFailure)
          else ({ st3 with staging := none }, .ok ())

/-- `yoLog` of src/main.go: read all of `.yo/logs/commits` and return it
unchanged; any read failure (in particular the file being absent) is an
error. -/
def yoLog (st : RepoState) (fl : Faults) : Except YoError Bytes :=
  match (if fl.readLog then none else st.log) with
  | none => .error .readLogFailure
  | some l => .ok l

/-- A sequence of `yo add` invocations (no intervening commit), in order. -/
def stageAll (fs : List (Bytes × Bytes)) (st : RepoState) : List Bytes → RepoState
  | [] => st
  | f :: rest => stageAll fs (yoAdd fs st f noFaults).1 rest

/-- Number of newline bytes in a byte string. -/
def countNL (b : Bytes) : Nat := (b.filter (fun x => x == 10)).length

/-- Split a byte string at newline bytes (the pieces, in order, with the
newlines removed; a trailing newline yields a final empty piece). -/
def splitLines : Bytes → List Bytes
  | [] => [[]]
  | b :: t =>
      if b = 10 then [] :: splitLines t
      else
        match splitLines t with
        | [] => [[b]]
        | l :: ls => (b :: l) :: ls

/-- A repository root with no repository structure at all. -/
def freshRoot : RepoState := ⟨false, false, false, [], none, none⟩

/-- The state produced by a successful `yo init`: empty object collection,
no staging record, no log. -/
def initializedEmpty : RepoState := ⟨true, true, true, [], none, none⟩

/-! ## Basic facts about the digest -/

/-- Validation of the SHA1 embedding on the spec's concrete vector:
`SHA1("hello") = aaf4c61ddcc5e8a2dabede0f3b482cd9aea9434d`. -/
theorem hashObject_hello :
    hashObject (strBytes "hello") = strBytes "aaf4c61ddcc5e8a2dabede0f3b482cd9aea9434d" := by
  decide

/-- Validation of the SHA1 embedding on the empty input:
`SHA1("") = da39a3ee5e6b4b0d3255bfef95601890afd80709`. -/
theorem hashObject_empty :
    hashObject [] = strBytes "da39a3ee5e6b4b0d3255bfef95601890afd80709" := by
  decide


/-- The SHA1 digest always has exactly 20 bytes. -/
theorem sha1_length (msg : Bytes) : (sha1 msg).length = 20 := by
  simp [sha1, wordBytes]

/-- Every byte of a 32-bit word's big-endian encoding is below 256. -/
theorem wordBytes_lt (w : Nat) : ∀ x ∈ wordBytes w, x < 256 := by
  intro x hx
  simp only [wordBytes, List.mem_cons, List.not_mem_nil, or_false] at hx
  rcases hx with rfl | rfl | rfl | rfl <;> exact Nat.mod_lt _ (by norm_num)

/-- Every entry of a SHA1 digest is a byte value. -/
theorem sha1_lt (msg : Bytes) : ∀ x ∈ sha1 msg, x < 256 := by
  simp only [sha1]
  refine List.forall_mem_append.mpr ⟨List.forall_mem_append.mpr ⟨List.forall_mem_append.mpr
    ⟨List.forall_mem_append.mpr ⟨?_, ?_⟩, ?_⟩, ?_⟩, ?_⟩ <;> exact wordBytes_lt _

/-- Hex encoding doubles the length. -/
theorem hexEncode_length (l : Bytes) : (hexEncode l).length = 2 * l.length := by
  induction l with
  | nil => rfl
  | cons b t ih => simp [hexEncode, ih]; omega

/-- A hex digit of a nibble is a lowercase hex character byte. -/
theorem hexDigit_isLowerHexByte {k : Nat} (hk : k < 16) : isLowerHexByte (hexDigit k) := by
  unfold hexDigit isLowerHexByte
  split <;> omega

/-- Every byte of a hex encoding of bytes is a lowercase hex character. -/
theorem hexEncode_mem {l : Bytes} (hl : ∀ b ∈ l, b < 256) :
    ∀ x ∈ hexEncode l, isLowerHexByte x := by
  induction l with
  | nil => intro x hx; simp [hexEncode] at hx
  | cons b t ih =>
      intro x hx
      have hb : b < 256 := hl b (by simp)
      simp only [hexEncode, List.mem_cons] at hx
      rcases hx with rfl | rfl | hx
      · exact hexDigit_isLowerHexByte (by omega)
      · exact hexDigit_isLowerHexByte (by omega)
      · exact ih (fun y hy => hl y (by simp [hy])) x hx

/-- Hex digits are injective on nibbles. -/
theorem hexDigit_inj {a b : Nat} (ha : a < 16) (hb : b < 16)
    (h : hexDigit a = hexDigit b) : a = b := by
  unfold hexDigit at h
  split at h <;> split at h <;> omega

/-- Hex encoding is injective on byte strings. -/
theorem hexEncode_inj : ∀ l1 l2 : Bytes, (∀ x ∈ l1, x < 256) → (∀ x ∈ l2, x < 256) →
    hexEncode l1 = hexEncode l2 → l1 = l2 := by
  intro l1
  induction l1 with
  | nil => intro l2 _ _ h; cases l2 with
      | nil => rfl
      | cons b t => simp [hexEncode] at h
  | cons a t ih =>
      intro l2 h1 h2 h
      cases l2 with
      | nil => simp [hexEncode] at h
      | cons b t2 =>
          simp only [hexEncode, List.cons.injEq] at h
          have ha : a < 256 := h1 a (by simp)
          have hb : b < 256 := h2 b (by simp)
          have e1 : a / 16 = b / 16 := hexDigit_inj (by omega) (by omega) h.1
          have e2 : a % 16 = b % 16 := hexDigit_inj (by omega) (by omega) h.2.1
          have : a = b := by omega
          subst this
          exact congrArg (a :: ·)
            (ih t2 (fun y hy => h1 y (by simp [hy])) (fun y hy => h2 y (by simp [hy])) h.2.2)

/-- Object digests have exactly 40 characters. -/
theorem hashObject_length (content : Bytes) : (hashObject content).length = 40 := by
  simp [hashObject, hexEncode_length, sha1_length]

/-- Every character of an object digest is a lowercase hex character. -/
theorem hashObject_mem (content : Bytes) : ∀ x ∈ hashObject content, isLowerHexByte x :=
  hexEncode_mem (sha1_lt content)

/-- Object digests never contain a newline byte. -/
theorem hashObject_no_newline (content : Bytes) : 10 ∉ hashObject content := by
  intro h
  have := hashObject_mem content 10 h
  unfold isLowerHexByte at this
  omega

/-! ## Unfolding lemmas for the operations -/

/-- A fault-free `yo add` of a readable file in an initialized repository:
the content is stored under its digest and one staging line is appended
(the staging file is created when absent). -/
theorem yoAdd_ok (fs : List (Bytes × Bytes)) (st : RepoState) (file content : Bytes)
    (hread : fs.lookup file = some content)
    (hobj : st.objectsDir = true) (hyo : st.yoDir = true) :
    yoAdd fs st file noFaults =
      ({ st with
          objects := (hashObject content, content) :: st.objects,
          staging := some (st.staging.getD [] ++ stagingLine (hashObject content) file) },
       .ok ()) := by
  simp [yoAdd, noFaults, hread, hobj, hyo, writeObject]

/-- A fault-free `yo commit` with a readable staging record in an initialized
repository: the staging bytes are stored under the digest of
`staging ++ message ++ t1`, the log record (with `t2`) is appended to the
log (created when absent), and the staging record is removed. -/
theorem yoCommit_ok (st : RepoState) (s message t1 t2 : Bytes)
    (hs : st.staging = some s)
    (hobj : st.objectsDir = true) (hlog : st.logsDir = true) :
    yoCommit st message t1 t2 noFaults =
      ({ st with
          objects := (hashObject (s ++ message ++ t1), s) :: st.objects,
          staging := none,
          log := some (st.log.getD []
            ++ logRecord (hashObject (s ++ message ++ t1)) message t2) },
       .ok ()) := by
  simp [yoCommit, noFaults, hs, hobj, hlog, writeObject]

/-- `yo init` on an existing `.yo` directory fails and touches nothing,
whatever the fault environment. -/
theorem yoInit_exists (st : RepoState) (fl : Faults) (h : st.yoDir = true) :
    yoInit st fl = (st, .error .alreadyExists) := by
  simp [yoInit, h]

/-- Fault-free `yo init` on a fresh root creates the directory structure
and changes nothing else. -/
theorem yoInit_fresh (st : RepoState) (h : st.yoDir = false) :
    yoInit st noFaults =
      ({ st with yoDir := true, objectsDir := true, logsDir := true }, .ok ()) := by
  simp [yoInit, noFaults, h]

/-! ## Lines of the staging record -/

/-- Appending anywhere distributes over the newline count. -/
theorem countNL_append (a b : Bytes) : countNL (a ++ b) = countNL a + countNL b := by
  simp [countNL, List.filter_append]

/-- A byte string without newline bytes has newline count zero. -/
theorem countNL_eq_zero {l : Bytes} (h : 10 ∉ l) : countNL l = 0 := by
  have hf : l.filter (fun x => x == 10) = [] := by
    rw [List.filter_eq_nil_iff]
    intro a ha
    simp only [beq_iff_eq]
    exact fun e => h (e ▸ ha)
  simp [countNL, hf]

/-- Splitting a newline-free piece followed by a newline peels one line. -/
theorem splitLines_line (l rest : Bytes) (h : 10 ∉ l) :
    splitLines (l ++ 10 :: rest) = l :: splitLines rest := by
  induction l with
  | nil => simp [splitLines]
  | cons b t ih =>
      have hb : b ≠ 10 := fun e => h (e ▸ List.mem_cons_self b t)
      have ht : 10 ∉ t := fun e => h (List.mem_cons_of_mem b e)
      simp only [List.cons_append, splitLines, hb, if_false, List.append_eq, ih ht]

/-- Splitting a concatenation of newline-terminated, newline-free pieces
recovers exactly the pieces (plus the final empty piece after the last
terminator). -/
theorem splitLines_join (pieces : List Bytes) (h : ∀ p ∈ pieces, 10 ∉ p) :
    splitLines (pieces.map (· ++ [10])).flatten = pieces ++ [[]] := by
  induction pieces with
  | nil => simp [splitLines]
  | cons p ps ih =>
      have hp : 10 ∉ p := h p (by simp)
      have hps : ∀ q ∈ ps, 10 ∉ q := fun q hq => h q (by simp [hq])
      simp only [List.map_cons, List.flatten_cons, List.append_assoc, List.singleton_append]
      rw [splitLines_line p _ hp, ih hps]
      rfl

/-- A staging line is a newline-terminated line whose body is the digest,
a space, and the path. -/
theorem stagingLine_eq (digest file : Bytes) :
    stagingLine digest file = (digest ++ [32] ++ file) ++ [10] := by
  simp [stagingLine]

/-- The body of a staging line contains no newline when the path does not. -/
theorem stagingLine_body_no_newline (content file : Bytes) (hf : 10 ∉ file) :
    10 ∉ hashObject content ++ [32] ++ file := by
  intro hmem
  rcases List.mem_append.mp hmem with hmem | hmem
  · rcases List.mem_append.mp hmem with hmem | hmem
    · exact hashObject_no_newline content hmem
    · simp at hmem
  · exact hf hmem

/-- Effect of a fault-free sequence of `yo add` calls on the staging record:
each call appends exactly its line, in call order. -/
theorem stageAll_staging (fs : List (Bytes × Bytes)) (entries : List (Bytes × Bytes)) :
    ∀ st : RepoState, st.objectsDir = true → st.yoDir = true →
    (∀ e ∈ entries, fs.lookup e.1 = some e.2) →
    (stageAll fs st (entries.map Prod.fst)).staging.getD [] =
      st.staging.getD []
        ++ (entries.map fun e => stagingLine (hashObject e.2) e.1).flatten := by
  induction entries with
  | nil => intro st _ _ _; simp [stageAll]
  | cons e es ih =>
      intro st ho hy hr
      have h1 : fs.lookup e.1 = some e.2 := hr e (by simp)
      simp only [List.map_cons, stageAll]
      rw [yoAdd_ok fs st e.1 e.2 h1 ho hy]
      rw [ih _ (by simp [ho]) (by simp [hy]) (fun q hq => hr q (by simp [hq]))]
      simp [List.flatten_cons, List.append_assoc]

/-- After at least one fault-free `yo add`, the staging record exists. -/
theorem stageAll_isSome (fs : List (Bytes × Bytes)) (entries : List (Bytes × Bytes)) :
    ∀ st : RepoState, st.objectsDir = true → st.yoDir = true →
    (∀ e ∈ entries, fs.lookup e.1 = some e.2) → entries ≠ [] →
    (stageAll fs st (entries.map Prod.fst)).staging.isSome := by
  induction entries with
  | nil => intro st _ _ _ hne; exact absurd rfl hne
  | cons e es ih =>
      intro st ho hy hr _
      have h1 : fs.lookup e.1 = some e.2 := hr e (by simp)
      simp only [List.map_cons, stageAll]
      rw [yoAdd_ok fs st e.1 e.2 h1 ho hy]
      rcases eq_or_ne es [] with rfl | hne
      · simp [stageAll]
      · exact ih _ (by simp [ho]) (by simp [hy]) (fun q hq => hr q (by simp [hq])) hne

/-- The newline count of a staging record built from newline-free paths is
the number of entries. -/
theorem countNL_stagingLines (entries : List (Bytes × Bytes))
    (h : ∀ e ∈ entries, 10 ∉ e.1) :
    countNL (entries.map fun e => stagingLine (hashObject e.2) e.1).flatten
      = entries.length := by
  induction entries with
  | nil => rfl
  | cons e es ih =>
      have he : 10 ∉ e.1 := h e (by simp)
      have hes : ∀ q ∈ es, 10 ∉ q.1 := fun q hq => h q (by simp [hq])
      simp only [List.map_cons, List.flatten_cons, countNL_append, ih hes]
      rw [stagingLine_eq, countNL_append,
        countNL_eq_zero (stagingLine_body_no_newline e.2 e.1 he)]
      simp [countNL]
      omega

/-! ## Claims -/

/-- C1: storing a byte sequence via the object-store put (the object write
performed by `yoAdd`) always yields the digest `hashObject content` — a pure
function of the content alone, hence the same on every call — and that
digest is exactly the 40-character lowercase-hex SHA1 of the content. -/
theorem c1_put_digest_is_hex_sha1 (content : Bytes) (fs : List (Bytes × Bytes))
    (st : RepoState) (file : Bytes)
    (hread : fs.lookup file = some content)
    (hobj : st.objectsDir = true) (hyo : st.yoDir = true) :
    (yoAdd fs st file noFaults).1.objects = (hashObject content, content) :: st.objects ∧
    hashObject content = hexEncode (sha1 content) ∧
    (hashObject content).length = 40 ∧
    (∀ b ∈ hashObject content, isLowerHexByte b) := by
  refine ⟨?_, rfl, hashObject_length content, hashObject_mem content⟩
  rw [yoAdd_ok fs st file content hread hobj hyo]

/-- Witness for C1 on the spec's concrete scenario: staging `a.txt` with
content `"hello"`. -/
theorem c1_put_digest_is_hex_sha1_witness :
    List.lookup (strBytes "a.txt") [(strBytes "a.txt", strBytes "hello")]
        = some (strBytes "hello") ∧
    ((yoAdd [(strBytes "a.txt", strBytes "hello")] initializedEmpty (strBytes "a.txt")
          noFaults).1.objects
        = (hashObject (strBytes "hello"), strBytes "hello") :: initializedEmpty.objects ∧
      hashObject (strBytes "hello") = hexEncode (sha1 (strBytes "hello")) ∧
      (hashObject (strBytes "hello")).length = 40 ∧
      (∀ b ∈ hashObject (strBytes "hello"), isLowerHexByte b)) :=
  ⟨by decide,
   c1_put_digest_is_hex_sha1 (strBytes "hello") [(strBytes "a.txt", strBytes "hello")]
     initializedEmpty (strBytes "a.txt") (by decide) rfl rfl⟩

/-- C2: a successful `yoCommit` computes its commit digest as the lowercase
hex SHA1 of `stagingBytes ++ message ++ t1`, where `t1` is the timestamp
string captured once immediately before hashing (the second capture `t2`
appears only in the displayed log record, while the digest recorded in both
the object key and the log record is the one hashed with `t1`). -/
theorem c2_commit_digest_hashes_triple (st : RepoState) (s message t1 t2 : Bytes)
    (hs : st.staging = some s)
    (hobj : st.objectsDir = true) (hlog : st.logsDir = true) :
    (yoCommit st message t1 t2 noFaults).1.objects
      = (hexEncode (sha1 (s ++ message ++ t1)), s) :: st.objects ∧
    (yoCommit st message t1 t2 noFaults).1.log
      = some (st.log.getD []
          ++ logRecord (hexEncode (sha1 (s ++ message ++ t1))) message t2) := by
  rw [yoCommit_ok st s message t1 t2 hs hobj hlog]
  exact ⟨rfl, rfl⟩

/-- Witness for C2: a concrete commit over a one-line staging record. -/
theorem c2_commit_digest_hashes_triple_witness :
    (RepoState.mk true true true [] (some (strBytes "d a\n")) none).staging
        = some (strBytes "d a\n") ∧
    ((yoCommit (RepoState.mk true true true [] (some (strBytes "d a\n")) none)
          (strBytes "first") (strBytes "t1") (strBytes "t2") noFaults).1.objects
        = [(hexEncode (sha1 (strBytes "d a\n" ++ strBytes "first" ++ strBytes "t1")),
            strBytes "d a\n")] ∧
      (yoCommit (RepoState.mk true true true [] (some (strBytes "d a\n")) none)
          (strBytes "first") (strBytes "t1") (strBytes "t2") noFaults).1.log
        = some ((none : Option Bytes).getD []
            ++ logRecord (hexEncode (sha1 (strBytes "d a\n" ++ strBytes "first"
                ++ strBytes "t1"))) (strBytes "first") (strBytes "t2"))) :=
  ⟨rfl,
   c2_commit_digest_hashes_triple (RepoState.mk true true true [] (some (strBytes "d a\n")) none)
     (strBytes "d a\n") (strBytes "first") (strBytes "t1") (strBytes "t2") rfl rfl rfl⟩

/-- C3: after a successful commit the staging record is deleted entirely
(absent, not truncated), an immediately following commit with no intervening
stage call fails with the staging-read error (NoStagedChanges) and changes
nothing, and the log's latest record is the just-made commit's record. -/
theorem c3_commit_clears_staging (st : RepoState) (s message t1 t2 message2 t1' t2' : Bytes)
    (hs : st.staging = some s)
    (hobj : st.objectsDir = true) (hlog : st.logsDir = true) :
    (yoCommit st message t1 t2 noFaults).2 = .ok () ∧
    (yoCommit st message t1 t2 noFaults).1.staging = none ∧
    (yoCommit st message t1 t2 noFaults).1.log
      = some (st.log.getD []
          ++ logRecord (hashObject (s ++ message ++ t1)) message t2) ∧
    yoCommit (yoCommit st message t1 t2 noFaults).1 message2 t1' t2' noFaults
      = ((yoCommit st message t1 t2 noFaults).1, .error .readStagingFailure) := by
  rw [yoCommit_ok st s message t1 t2 hs hobj hlog]
  refine ⟨rfl, rfl, rfl, ?_⟩
  simp [yoCommit, noFaults]

/-- Witness for C3: commit on a concrete one-entry staging record, then an
immediate second commit attempt. -/
theorem c3_commit_clears_staging_witness :
    (RepoState.mk true true true [] (some (strBytes "d a\n")) none).staging
        = some (strBytes "d a\n") ∧
    ((yoCommit (RepoState.mk true true true [] (some (strBytes "d a\n")) none)
          (strBytes "m") (strBytes "t1") (strBytes "t2") noFaults).2 = .ok () ∧
      (yoCommit (RepoState.mk true true true [] (some (strBytes "d a\n")) none)
          (strBytes "m") (strBytes "t1") (strBytes "t2") noFaults).1.staging = none ∧
      (yoCommit (RepoState.mk true true true [] (some (strBytes "d a\n")) none)
          (strBytes "m") (strBytes "t1") (strBytes "t2") noFaults).1.log
        = some ((none : Option Bytes).getD []
            ++ logRecord (hashObject (strBytes "d a\n" ++ strBytes "m" ++ strBytes "t1"))
                (strBytes "m") (strBytes "t2")) ∧
      yoCommit (yoCommit (RepoState.mk true true true [] (some (strBytes "d a\n")) none)
            (strBytes "m") (strBytes "t1") (strBytes "t2") noFaults).1
          (strBytes "m2") (strBytes "u1") (strBytes "u2") noFaults
        = ((yoCommit (RepoState.mk true true true [] (some (strBytes "d a\n")) none)
              (strBytes "m") (strBytes "t1") (strBytes "t2") noFaults).1,
           .error .readStagingFailure)) :=
  ⟨rfl,
   c3_commit_clears_staging (RepoState.mk true true true [] (some (strBytes "d a\n")) none)
     (strBytes "d a\n") (strBytes "m") (strBytes "t1") (strBytes "t2")
     (strBytes "m2") (strBytes "u1") (strBytes "u2") rfl rfl rfl⟩

/-- C4: the object written by a successful commit is stored under the key
`hashObject (stagingBytes ++ message ++ t1)` while its stored payload is
exactly `stagingBytes` — key and content are decoupled; in particular, on a
concrete instance the key differs from the SHA1 digest of the stored
payload. -/
theorem c4_commit_key_payload_decoupled (st : RepoState) (s message t1 t2 : Bytes)
    (hs : st.staging = some s)
    (hobj : st.objectsDir = true) (hlog : st.logsDir = true) :
    (yoCommit st message t1 t2 noFaults).1.objects.lookup
        (hashObject (s ++ message ++ t1)) = some s ∧
    (yoCommit st message t1 t2 noFaults).1.objects
      = (hashObject (s ++ message ++ t1), s) :: st.objects ∧
    hashObject (strBytes "d a\n" ++ strBytes "m" ++ strBytes "t")
      ≠ hashObject (strBytes "d a\n") := by
  rw [yoCommit_ok st s message t1 t2 hs hobj hlog]
  refine ⟨?_, rfl, by decide⟩
  simp [List.lookup]

/-- Witness for C4: a concrete commit; the commit object's key is the digest
of the triple, its payload the staging bytes alone. -/
theorem c4_commit_key_payload_decoupled_witness :
    (RepoState.mk true true true [] (some (strBytes "d a\n")) none).staging
        = some (strBytes "d a\n") ∧
    ((yoCommit (RepoState.mk true true true [] (some (strBytes "d a\n")) none)
          (strBytes "m") (strBytes "t") (strBytes "t2") noFaults).1.objects.lookup
        (hashObject (strBytes "d a\n" ++ strBytes "m" ++ strBytes "t"))
        = some (strBytes "d a\n") ∧
      (yoCommit (RepoState.mk true true true [] (some (strBytes "d a\n")) none)
          (strBytes "m") (strBytes "t") (strBytes "t2") noFaults).1.objects
        = [(hashObject (strBytes "d a\n" ++ strBytes "m" ++ strBytes "t"), strBytes "d a\n")] ∧
      hashObject (strBytes "d a\n" ++ strBytes "m" ++ strBytes "t")
        ≠ hashObject (strBytes "d a\n")) :=
  ⟨rfl,
   c4_commit_key_payload_decoupled (RepoState.mk true true true [] (some (strBytes "d a\n")) none)
     (strBytes "d a\n") (strBytes "m") (strBytes "t") (strBytes "t2") rfl rfl rfl⟩

/-- C5 (amended): for a fault-free sequence of `yo add` calls on files whose
paths contain no newline byte, starting from an absent staging record, the
staging record is the concatenation, in call order, of the lines
`digest(content) ++ " " ++ path ++ "\n"`: it splits into exactly `n` lines
(the `i`-th being `digest(cᵢ) ++ " " ++ fᵢ`) and has `n` newline bytes. -/
theorem c5_staging_order (fs entries : List (Bytes × Bytes)) (st : RepoState)
    (hobj : st.objectsDir = true) (hyo : st.yoDir = true)
    (hstage : st.staging = none)
    (hread : ∀ e ∈ entries, fs.lookup e.1 = some e.2)
    (hnl : ∀ e ∈ entries, 10 ∉ e.1) :
    (stageAll fs st (entries.map Prod.fst)).staging.getD []
      = (entries.map fun e => stagingLine (hashObject e.2) e.1).flatten ∧
    splitLines ((stageAll fs st (entries.map Prod.fst)).staging.getD [])
      = (entries.map fun e => hashObject e.2 ++ [32] ++ e.1) ++ [[]] ∧
    countNL ((stageAll fs st (entries.map Prod.fst)).staging.getD [])
      = entries.length := by
  have hmain := stageAll_staging fs entries st hobj hyo hread
  rw [hstage] at hmain
  simp only [Option.getD_none, List.nil_append] at hmain
  have hshape : (entries.map fun e => stagingLine (hashObject e.2) e.1)
      = (entries.map fun e => hashObject e.2 ++ [32] ++ e.1).map (· ++ [10]) := by
    simp [List.map_map, Function.comp, stagingLine_eq]
  have hbody : ∀ p ∈ entries.map fun e => hashObject e.2 ++ [32] ++ e.1, 10 ∉ p := by
    intro p hp
    obtain ⟨e, he, rfl⟩ := List.mem_map.mp hp
    exact stagingLine_body_no_newline e.2 e.1 (hnl e he)
  refine ⟨hmain, ?_, ?_⟩
  · rw [hmain, hshape, splitLines_join _ hbody]
  · rw [hmain, countNL_stagingLines entries hnl]

/-- Witness for C5 (amended): staging `a.txt` (content `"hello"`) then
`b.txt` (content `"x"`). -/
theorem c5_staging_order_witness :
    (∀ e ∈ [(strBytes "a.txt", strBytes "hello"), (strBytes "b.txt", strBytes "x")],
      List.lookup e.1
        [(strBytes "a.txt", strBytes "hello"), (strBytes "b.txt", strBytes "x")]
        = some e.2) ∧
    (∀ e ∈ [(strBytes "a.txt", strBytes "hello"), (strBytes "b.txt", strBytes "x")],
      10 ∉ e.1) ∧
    ((stageAll [(strBytes "a.txt", strBytes "hello"), (strBytes "b.txt", strBytes "x")]
          initializedEmpty
          ([(strBytes "a.txt", strBytes "hello"),
            (strBytes "b.txt", strBytes "x")].map Prod.fst)).staging.getD []
      = ([(strBytes "a.txt", strBytes "hello"), (strBytes "b.txt", strBytes "x")].map
          fun e => stagingLine (hashObject e.2) e.1).flatten ∧
    splitLines ((stageAll [(strBytes "a.txt", strBytes "hello"), (strBytes "b.txt", strBytes "x")]
          initializedEmpty
          ([(strBytes "a.txt", strBytes "hello"),
            (strBytes "b.txt", strBytes "x")].map Prod.fst)).staging.getD [])
      = ([(strBytes "a.txt", strBytes "hello"), (strBytes "b.txt", strBytes "x")].map
          fun e => hashObject e.2 ++ [32] ++ e.1) ++ [[]] ∧
    countNL ((stageAll [(strBytes "a.txt", strBytes "hello"), (strBytes "b.txt", strBytes "x")]
          initializedEmpty
          ([(strBytes "a.txt", strBytes "hello"),
            (strBytes "b.txt", strBytes "x")].map Prod.fst)).staging.getD [])
      = [(strBytes "a.txt", strBytes "hello"), (strBytes "b.txt", strBytes "x")].length) :=
  ⟨by decide, by decide,
   c5_staging_order [(strBytes "a.txt", strBytes "hello"), (strBytes "b.txt", strBytes "x")]
     [(strBytes "a.txt", strBytes "hello"), (strBytes "b.txt", strBytes "x")]
     initializedEmpty rfl rfl rfl (by decide) (by decide)⟩

/-- C5 counterexample to the claim as stated: staging a single file whose
path contains a newline byte (path `"a\nb"`, content `"x"`) produces a
staging record with two newline-terminated lines, not exactly one line. -/
theorem c5_staging_order_counterexample :
    countNL ((stageAll [([97, 10, 98], [120])] initializedEmpty
        [[97, 10, 98]]).staging.getD []) = 2 ∧
    ¬ countNL ((stageAll [([97, 10, 98], [120])] initializedEmpty
        [[97, 10, 98]]).staging.getD []) = 1 := by
  constructor
  · decide
  · decide

/-- C6: `yoLog` fails with the log-read error (LogUnavailable) exactly when
the log file is absent — the state before any commit has ever been made —
and otherwise returns the entire stored log unchanged; a successful commit
appends its record at the end of the existing log, so records appear in
append order, oldest first, with no filtering or transformation. -/
theorem c6_history_append_order (stN stS : RepoState) (l : Bytes)
    (st2 : RepoState) (s message t1 t2 : Bytes)
    (hN : stN.log = none) (hS : stS.log = some l)
    (hs : st2.staging = some s)
    (hobj : st2.objectsDir = true) (hlog : st2.logsDir = true) :
    yoLog stN noFaults = .error .readLogFailure ∧
    yoLog stS noFaults = .ok l ∧
    (yoCommit st2 message t1 t2 noFaults).1.log
      = some (st2.log.getD []
          ++ logRecord (hashObject (s ++ message ++ t1)) message t2) := by
  refine ⟨by simp [yoLog, noFaults, hN], by simp [yoLog, noFaults, hS], ?_⟩
  rw [yoCommit_ok st2 s message t1 t2 hs hobj hlog]

/-- Witness for C6: an absent log errors; a present log (one prior record)
is returned whole; a commit on a state with that log appends after it. -/
theorem c6_history_append_order_witness :
    yoLog initializedEmpty noFaults = .error .readLogFailure ∧
    yoLog (RepoState.mk true true true [] none (some (strBytes "r1"))) noFaults
      = .ok (strBytes "r1") ∧
    (yoCommit (RepoState.mk true true true [] (some (strBytes "d a\n"))
          (some (strBytes "r1"))) (strBytes "m") (strBytes "t1") (strBytes "t2")
        noFaults).1.log
      = some ((some (strBytes "r1")).getD []
          ++ logRecord (hashObject (strBytes "d a\n" ++ strBytes "m" ++ strBytes "t1"))
              (strBytes "m") (strBytes "t2")) :=
  c6_history_append_order initializedEmpty
    (RepoState.mk true true true [] none (some (strBytes "r1"))) (strBytes "r1")
    (RepoState.mk true true true [] (some (strBytes "d a\n")) (some (strBytes "r1")))
    (strBytes "d a\n") (strBytes "m") (strBytes "t1") (strBytes "t2")
    rfl rfl rfl rfl rfl

/-- C7: `yoInit` on a root whose `.yo` directory already exists fails with
the already-exists error and returns the state untouched, under any fault
environment; on a root with no repository structure it creates exactly the
empty object collection and the log directory. -/
theorem c7_init_guard (st stF : RepoState) (fl : Faults)
    (hex : st.yoDir = true)
    (hF : stF.yoDir = false) (hFo : stF.objects = [])
    (hFs : stF.staging = none) (hFl : stF.log = none) :
    yoInit st fl = (st, .error .alreadyExists) ∧
    yoInit stF noFaults = (initializedEmpty, .ok ()) := by
  refine ⟨yoInit_exists st fl hex, ?_⟩
  rw [yoInit_fresh stF hF]
  cases stF
  simp_all [initializedEmpty]

/-- Witness for C7: init on an initialized root and on a fresh root. -/
theorem c7_init_guard_witness :
    yoInit initializedEmpty noFaults = (initializedEmpty, .error .alreadyExists) ∧
    yoInit freshRoot noFaults = (initializedEmpty, .ok ()) :=
  c7_init_guard initializedEmpty freshRoot noFaults rfl rfl rfl rfl rfl

/-- C8: every commit failure mode is fatal and leaves the on-disk state
exactly as of the last completed step, with no rollback: a staging-read
failure or a commit-object write failure changes nothing; a log-open
failure leaves the commit object written; a log-write failure additionally
leaves the log file created (empty when it was absent); a staging-clear
failure leaves the commit object and the appended log record in place with
the staging record intact — and a subsequent fault-free commit then reuses
that stale staging content as its payload. -/
theorem c8_commit_failures_no_rollback (st : RepoState)
    (s message t1 t2 message2 t1' t2' : Bytes)
    (hs : st.staging = some s)
    (hobj : st.objectsDir = true) (hlog : st.logsDir = true) :
    yoCommit st message t1 t2 { noFaults with readStaging := true }
      = (st, .error .readStagingFailure) ∧
    yoCommit st message t1 t2 { noFaults with writeCommit := true }
      = (st, .error .writeCommitFailure) ∧
    yoCommit st message t1 t2 { noFaults with openLog := true }
      = ({ st with objects := (hashObject (s ++ message ++ t1), s) :: st.objects },
         .error .openLogFailure) ∧
    yoCommit st message t1 t2 { noFaults with writeLog := true }
      = ({ st with objects := (hashObject (s ++ message ++ t1), s) :: st.objects,
                   log := some (st.log.getD []) },
         .error .writeLogFailure) ∧
    yoCommit st message t1 t2 { noFaults with removeStaging := true }
      = ({ st with objects := (hashObject (s ++ message ++ t1), s) :: st.objects,
                   log := some (st.log.getD []
                     ++ logRecord (hashObject (s ++ message ++ t1)) message t2) },
         .error .clearStagingFailure) ∧
    (yoCommit st message t1 t2 { noFaults with removeStaging := true }).1.staging
      = some s ∧
    (yoCommit (yoCommit st message t1 t2 { noFaults with removeStaging := true }).1
        message2 t1' t2' noFaults).1.objects.lookup
          (hashObject (s ++ message2 ++ t1'))
      = some s := by
  have h3 : yoCommit st message t1 t2 { noFaults with removeStaging := true }
      = ({ st with objects := (hashObject (s ++ message ++ t1), s) :: st.objects,
                   log := some (st.log.getD []
                     ++ logRecord (hashObject (s ++ message ++ t1)) message t2) },
         .error .clearStagingFailure) := by
    simp [yoCommit, noFaults, hs, hobj, hlog, writeObject]
  refine ⟨by simp [yoCommit, noFaults, hs, hobj, hlog, writeObject],
    by simp [yoCommit, noFaults, hs, hobj, hlog, writeObject],
    by simp [yoCommit, noFaults, hs, hobj, hlog, writeObject],
    by simp [yoCommit, noFaults, hs, hobj, hlog, writeObject],
    h3, by rw [h3]; exact hs, ?_⟩
  rw [h3]
  simp [yoCommit, noFaults, hs, hobj, hlog, writeObject, List.lookup]

/-- Witness for C8: a concrete staged state driven through each single-fault
commit, then a fault-free retry after the failed staging clear. -/
theorem c8_commit_failures_no_rollback_witness :
    (RepoState.mk true true true [] (some (strBytes "d a\n")) none).staging
        = some (strBytes "d a\n") ∧
    (yoCommit (RepoState.mk true true true [] (some (strBytes "d a\n")) none)
        (strBytes "m") (strBytes "t1") (strBytes "t2")
        { noFaults with readStaging := true }
      = (RepoState.mk true true true [] (some (strBytes "d a\n")) none,
         .error .readStagingFailure) ∧
    yoCommit (RepoState.mk true true true [] (some (strBytes "d a\n")) none)
        (strBytes "m") (strBytes "t1") (strBytes "t2")
        { noFaults with writeCommit := true }
      = (RepoState.mk true true true [] (some (strBytes "d a\n")) none,
         .error .writeCommitFailure) ∧
    yoCommit (RepoState.mk true true true [] (some (strBytes "d a\n")) none)
        (strBytes "m") (strBytes "t1") (strBytes "t2")
        { noFaults with openLog := true }
      = (RepoState.mk true true true
           [(hashObject (strBytes "d a\n" ++ strBytes "m" ++ strBytes "t1"),
             strBytes "d a\n")] (some (strBytes "d a\n")) none,
         .error .openLogFailure) ∧
    yoCommit (RepoState.mk true true true [] (some (strBytes "d a\n")) none)
        (strBytes "m") (strBytes "t1") (strBytes "t2")
        { noFaults with writeLog := true }
      = (RepoState.mk true true true
           [(hashObject (strBytes "d a\n" ++ strBytes "m" ++ strBytes "t1"),
             strBytes "d a\n")] (some (strBytes "d a\n")) (some []),
         .error .writeLogFailure) ∧
    yoCommit (RepoState.mk true true true [] (some (strBytes "d a\n")) none)
        (strBytes "m") (strBytes "t1") (strBytes "t2")
        { noFaults with removeStaging := true }
      = (RepoState.mk true true true
           [(hashObject (strBytes "d a\n" ++ strBytes "m" ++ strBytes "t1"),
             strBytes "d a\n")] (some (strBytes "d a\n"))
           (some ([] ++ logRecord (hashObject (strBytes "d a\n" ++ strBytes "m"
               ++ strBytes "t1")) (strBytes "m") (strBytes "t2"))),
         .error .clearStagingFailure) ∧
    (yoCommit (RepoState.mk true true true [] (some (strBytes "d a\n")) none)
        (strBytes "m") (strBytes "t1") (strBytes "t2")
        { noFaults with removeStaging := true }).1.staging = some (strBytes "d a\n") ∧
    (yoCommit (yoCommit (RepoState.mk true true true [] (some (strBytes "d a\n")) none)
          (strBytes "m") (strBytes "t1") (strBytes "t2")
          { noFaults with removeStaging := true }).1
        (strBytes "m2") (strBytes "u1") (strBytes "u2") noFaults).1.objects.lookup
          (hashObject (strBytes "d a\n" ++ strBytes "m2" ++ strBytes "u1"))
      = some (strBytes "d a\n")) :=
  ⟨rfl,
   c8_commit_failures_no_rollback
     (RepoState.mk true true true [] (some (strBytes "d a\n")) none)
     (strBytes "d a\n") (strBytes "m") (strBytes "t1") (strBytes "t2")
     (strBytes "m2") (strBytes "u1") (strBytes "u2") rfl rfl rfl⟩

/-- C10: `yoAdd` appends exactly `digest ++ " " ++ path ++ "\n"` with the
path interpolated verbatim — no escaping, quoting, or validation — so when
the path contains a newline byte the staging record's newline count grows by
`1 + (newlines in path) ≥ 2`: more than one line for a single entry. -/
theorem c10_newline_path_breaks_lines (fs : List (Bytes × Bytes)) (st : RepoState)
    (file content : Bytes)
    (hread : fs.lookup file = some content)
    (hobj : st.objectsDir = true) (hyo : st.yoDir = true)
    (hnl : 10 ∈ file) :
    (yoAdd fs st file noFaults).1.staging
      = some (st.staging.getD [] ++ (hashObject content ++ [32] ++ file ++ [10])) ∧
    countNL ((yoAdd fs st file noFaults).1.staging.getD [])
      = countNL (st.staging.getD []) + countNL file + 1 ∧
    countNL (st.staging.getD []) + 2
      ≤ countNL ((yoAdd fs st file noFaults).1.staging.getD []) := by
  rw [yoAdd_ok fs st file content hread hobj hyo]
  have hfile1 : 1 ≤ countNL file := by
    have hmem : 10 ∈ file.filter (fun x => x == 10) :=
      List.mem_filter.mpr ⟨hnl, by simp⟩
    have := List.length_pos.mpr (List.ne_nil_of_mem hmem)
    unfold countNL
    omega
  have hcnt : countNL (st.staging.getD [] ++ stagingLine (hashObject content) file)
      = countNL (st.staging.getD []) + countNL file + 1 := by
    unfold stagingLine
    rw [countNL_append, countNL_append, countNL_append, countNL_append,
      countNL_eq_zero (hashObject_no_newline content)]
    have h32 : countNL [32] = 0 := by decide
    have h10 : countNL [10] = 1 := by decide
    omega
  refine ⟨by rw [stagingLine], ?_, ?_⟩
  · simpa using hcnt
  · simp only [Option.getD_some]
    omega

/-- Witness for C10: staging the path `"a\nb"` (bytes `[97, 10, 98]`) with
content `"x"` appends a record fragment spanning two lines. -/
theorem c10_newline_path_breaks_lines_witness :
    List.lookup ([97, 10, 98] : Bytes) [(([97, 10, 98] : Bytes), ([120] : Bytes))]
        = some [120] ∧
    (10 : Nat) ∈ ([97, 10, 98] : Bytes) ∧
    ((yoAdd [(([97, 10, 98] : Bytes), ([120] : Bytes))] initializedEmpty [97, 10, 98]
          noFaults).1.staging
      = some (initializedEmpty.staging.getD []
          ++ (hashObject [120] ++ [32] ++ [97, 10, 98] ++ [10])) ∧
    countNL ((yoAdd [(([97, 10, 98] : Bytes), ([120] : Bytes))] initializedEmpty [97, 10, 98]
          noFaults).1.staging.getD [])
      = countNL (initializedEmpty.staging.getD []) + countNL [97, 10, 98] + 1 ∧
    countNL (initializedEmpty.staging.getD []) + 2
      ≤ countNL ((yoAdd [(([97, 10, 98] : Bytes), ([120] : Bytes))] initializedEmpty
          [97, 10, 98] noFaults).1.staging.getD [])) :=
  ⟨by decide, by decide,
   c10_newline_path_breaks_lines [(([97, 10, 98] : Bytes), ([120] : Bytes))]
     initializedEmpty [97, 10, 98] [120] (by decide) rfl rfl (by decide)⟩
